import Mathlib

/-!
Verification of the FlashCard question-generation and answer-evaluation engine.

The definitions below are a shallow embedding of the TypeScript source:
strings are lists of characters, the random shuffles
(the sort-by-random-comparator pattern) are modelled as explicit function
parameters constrained to produce permutations, the random card pick and the
random shape roll are modelled as explicit oracles, and the React component
state is modelled as explicit state records with pure step functions.
-/

namespace FlashCard

/-- Characters of a JavaScript string, modelled as a list of characters. -/
abbrev Chars := List Char

/-- Whitespace test for the characters handled by the app's regular
expressions and trim calls. -/
def isWs (c : Char) : Bool := c == ' ' || c == '\t' || c == '\n' || c == '\r'

/-- JavaScript toLowerCase, modelled character-wise. -/
def toLowerStr (s : Chars) : Chars := s.map Char.toLower

/-- JavaScript String.prototype.trim: strip leading and trailing whitespace. -/
def trimStr (s : Chars) : Chars := ((s.dropWhile isWs).reverse.dropWhile isWs).reverse

/-- JavaScript replace of every maximal whitespace run by a single space,
the regex-replace step of normalizeString in ResponseMode.tsx and
TestMode.tsx. -/
def collapseWs : Chars → Chars
  | [] => []
  | [c] => if isWs c then [' '] else [c]
  | c :: d :: rest =>
    if isWs c && isWs d then collapseWs (d :: rest)
    else (if isWs c then ' ' else c) :: collapseWs (d :: rest)

/-- normalizeString from ResponseMode.tsx lines 25-27 and TestMode.tsx
lines 129-131: lower-case, trim, collapse internal whitespace runs. -/
def normalizeString (s : Chars) : Chars := collapseWs (trimStr (toLowerStr s))

/-- The core free-text grading rule: normalize both strings and compare. -/
def gradeFreeText (userInput correctAnswer : Chars) : Bool :=
  normalizeString userInput == normalizeString correctAnswer

/-- The string comparison inside ResponseMode.tsx checkAnswer (lines 29-43):
the user input and the card's vocab are both normalized and compared. -/
def responseCheckAnswer (userInput vocab : Chars) : Bool :=
  normalizeString userInput == normalizeString vocab

/-- Question shapes of the mixed test, TestMode.tsx line 11. -/
inductive QType
  | mcWordToMeaning
  | mcMeaningToWord
  | response
  deriving DecidableEq

/-- The per-question grading logic shared by TestMode.tsx calculateScore
(lines 133-150) and isAnswerCorrect (lines 152-161): an absent stored answer,
and also an empty-string stored answer (both falsy in JavaScript), are graded
incorrect before any comparison; response questions are graded by
normalize-then-compare, multiple-choice questions by exact equality. -/
def testIsAnswerCorrect (qtype : QType) (correctAnswer : Chars) (stored : Option Chars) : Bool :=
  match stored with
  | none => false
  | some a =>
    if a.isEmpty then false
    else
      match qtype with
      | QType.response => gradeFreeText a correctAnswer
      | _ => a == correctAnswer

/-- Decimal rendering of a natural number, the template-literal interpolation
of a number into a string. -/
def natToStr (n : Nat) : Chars := Nat.toDigits 10 n

/-- A synthetic fallback option string: the fallback text, a space, and the
decimal index, as produced by the template literals in QuizMode.tsx line 59
and TestMode.tsx lines 69 and 89. -/
def placeholder (pre : Chars) (k : Nat) : Chars := pre ++ [' '] ++ natToStr k

/-- Fallback text used when sampling meaning distractors. -/
def defFallback : Chars := "Definition".data

/-- Fallback text used when sampling vocabulary distractors. -/
def wordFallback : Chars := "Word".data

/-- The fallback while-loop of QuizMode.tsx lines 58-60 and TestMode.tsx
lines 68-70 and 88-90: while fewer than 3 distractors exist, push the
fallback text followed by current-length-plus-one. -/
def padTo3 (pre : Chars) (l : List Chars) : List Chars :=
  if l.length < 3 then padTo3 pre (l ++ [placeholder pre (l.length + 1)]) else l
termination_by 3 - l.length
decreasing_by simp only [List.length_append, List.length_cons, List.length_nil]; omega

/-- The real (pre-fallback) distractors: the candidate pool filtered to values
different from the correct answer, shuffled, first three taken. -/
def takenDistractors (pool : List Chars) (correct : Chars)
    (shufD : List Chars → List Chars) : List Chars :=
  (shufD (pool.filter (fun m => m != correct))).take 3

/-- The distractor sampler shared by QuizMode.tsx lines 52-60 and both
multiple-choice branches of TestMode.tsx: filter the pool, shuffle, take up
to three, then pad with synthetic fallback strings to exactly three. -/
def sampleDistractors (pool : List Chars) (correct : Chars) (pre : Chars)
    (shufD : List Chars → List Chars) : List Chars :=
  padTo3 pre (takenDistractors pool correct shufD)

/-- The option list of a generated multiple-choice question: the three
distractors with the correct answer appended, then shuffled
(QuizMode.tsx line 62, TestMode.tsx lines 72 and 92). -/
def mcOptions (pool : List Chars) (correct : Chars) (pre : Chars)
    (shufD shufO : List Chars → List Chars) : List Chars :=
  shufO (sampleDistractors pool correct pre shufD ++ [correct])

/-- Card data, types.ts lines 2-6. -/
structure TCard where
  id : Chars
  vocab : Chars
  meaning : Chars
  deriving DecidableEq, Inhabited

/-- A generated mixed-test question, TestMode.tsx lines 13-19. -/
structure TQuestion where
  id : Chars
  qtype : QType
  card : TCard
  options : Option (List Chars)
  correctAnswer : Chars
  deriving DecidableEq

/-- Total number of mixed-test questions for a section of n cards,
TestMode.tsx lines 39-40: n plus the ceiling of n over 4. -/
def totalQuestions (n : Nat) : Nat := n + (n + 3) / 4

/-- The question-shape roll of TestMode.tsx lines 50-59, with the uniform
draw in the unit interval modelled as a rational parameter: below 0.33 the
word-to-meaning shape, below 0.66 the meaning-to-word shape, otherwise the
free-text response shape. -/
def questionTypeRoll (r : ℚ) : QType :=
  if r < 33 / 100 then QType.mcWordToMeaning
  else if r < 66 / 100 then QType.mcMeaningToWord
  else QType.response

/-- One iteration of the mixed-test generation loop, TestMode.tsx
lines 45-110: pick a random card, roll the shape, and build the question.
The random card index, the shape roll, the two option shuffles, and the
random id suffix are explicit per-iteration oracles. -/
def mkTestQuestion (cards : List TCard) (pick : Nat → Nat) (roll : Nat → ℚ)
    (shufD shufO : Nat → List Chars → List Chars) (suffix : Nat → Chars)
    (i : Nat) : TQuestion :=
  let allMeanings := cards.map (fun c => c.meaning)
  let allWords := cards.map (fun c => c.vocab)
  let card := cards.getD (pick i % cards.length) default
  let qid := "q-".data ++ natToStr i ++ "-".data ++ suffix i
  match questionTypeRoll (roll i) with
  | QType.mcWordToMeaning =>
    ⟨qid, QType.mcWordToMeaning, card,
      some (mcOptions allMeanings card.meaning defFallback (shufD i) (shufO i)),
      card.meaning⟩
  | QType.mcMeaningToWord =>
    ⟨qid, QType.mcMeaningToWord, card,
      some (mcOptions allWords card.vocab wordFallback (shufD i) (shufO i)),
      card.vocab⟩
  | QType.response => ⟨qid, QType.response, card, none, card.vocab⟩

/-- The full mixed-test generation loop of TestMode.tsx lines 42-110. -/
def generateTestQuestions (cards : List TCard) (pick : Nat → Nat) (roll : Nat → ℚ)
    (shufD shufO : Nat → List Chars → List Chars) (suffix : Nat → Chars) :
    List TQuestion :=
  (List.range (totalQuestions cards.length)).map
    (mkTestQuestion cards pick roll shufD shufO suffix)

/-- The mixed-test question set as installed by TestMode.tsx line 112:
the generated questions shuffled once. -/
def buildTest (cards : List TCard) (pick : Nat → Nat) (roll : Nat → ℚ)
    (shufD shufO : Nat → List Chars → List Chars) (suffix : Nat → Chars)
    (finalShuf : List TQuestion → List TQuestion) : List TQuestion :=
  finalShuf (generateTestQuestions cards pick roll shufD shufO suffix)

/-- A generated quiz-mode question, QuizMode part of types.ts lines 27-31. -/
structure QuizQuestion where
  id : Chars
  card : TCard
  options : List Chars
  deriving DecidableEq

/-- The quiz-mode generation of types.ts lines 47-69: one question per card,
options sampled from all other meanings with the Definition fallback. -/
def mkQuizQuestions (cards : List TCard) (shufD shufO : Nat → List Chars → List Chars)
    (suffix : Nat → Chars) : List QuizQuestion :=
  let allMeanings := cards.map (fun c => c.meaning)
  cards.enum.map (fun p =>
    ⟨"q-".data ++ natToStr p.1 ++ "-".data ++ suffix p.1, p.2,
      mcOptions allMeanings p.2.meaning defFallback (shufD p.1) (shufO p.1)⟩)

/-- The quiz question set as installed by types.ts line 72: the generated
questions shuffled once. -/
def buildQuiz (cards : List TCard) (shufD shufO : Nat → List Chars → List Chars)
    (suffix : Nat → Chars) (finalShuf : List QuizQuestion → List QuizQuestion) :
    List QuizQuestion :=
  finalShuf (mkQuizQuestions cards shufD shufO suffix)

/-- Per-question grading of TestMode.tsx, looking the stored answer up by
question id. -/
def isAnswerCorrectQ (q : TQuestion) (answers : Chars → Option Chars) : Bool :=
  testIsAnswerCorrect q.qtype q.correctAnswer (answers q.id)

/-- calculateScore of TestMode.tsx lines 133-150: the number of questions
whose stored answer grades correct. -/
def calculateScore (qs : List TQuestion) (answers : Chars → Option Chars) : Nat :=
  qs.countP (fun q => isAnswerCorrectQ q answers)

/-- Flashcard session state, FlashcardMode.tsx lines 12-17. -/
structure FlashState where
  cards : List TCard
  index : Nat
  isFlipped : Bool
  forgotten : List TCard
  remembered : Nat
  isDone : Bool
  deriving DecidableEq

/-- handleResponse of FlashcardMode.tsx lines 23-36: record the self-reported
outcome, then advance or finish. -/
def handleResponse (s : FlashState) (isCorrect : Bool) : FlashState :=
  let s1 :=
    if isCorrect then { s with remembered := s.remembered + 1 }
    else { s with forgotten := s.forgotten ++ [s.cards.getD s.index default] }
  if s1.index < s1.cards.length - 1 then { s1 with isFlipped := false, index := s1.index + 1 }
  else { s1 with isDone := true }

/-- handleBack of FlashcardMode.tsx lines 38-43: step back one card when the
index is positive, otherwise do nothing. -/
def handleBack (s : FlashState) : FlashState :=
  if 0 < s.index then { s with isFlipped := false, index := s.index - 1 } else s

/-- User events available during a flashcard session. -/
inductive FlashEvent
  | answer : Bool → FlashEvent
  | back : FlashEvent

/-- One flashcard-session transition; once the session is done the answer and
back buttons are no longer rendered, so events no longer change the state. -/
def flashStep (s : FlashState) (e : FlashEvent) : FlashState :=
  if s.isDone then s
  else
    match e with
    | FlashEvent.answer b => handleResponse s b
    | FlashEvent.back => handleBack s

/-- A flashcard session run from a state through a list of events. -/
def runFlash (s : FlashState) (es : List FlashEvent) : FlashState :=
  es.foldl flashStep s

/-- Initial flashcard state, FlashcardMode.tsx lines 12-21: the section's
cards shuffled, everything else reset. -/
def startFlash (cards : List TCard) (shuf : List TCard → List TCard) : FlashState :=
  { cards := shuf cards, index := 0, isFlipped := false,
    forgotten := [], remembered := 0, isDone := false }

/-- restartWithForgotten of FlashcardMode.tsx lines 45-52. -/
def restartWithForgotten (s : FlashState) (shuf : List TCard → List TCard) : FlashState :=
  { cards := shuf s.forgotten, index := 0, isFlipped := false,
    forgotten := [], remembered := 0, isDone := false }

/-- Typed-response session state, ResponseMode.tsx lines 12-19. -/
structure RespState where
  cards : List TCard
  index : Nat
  userInput : Chars
  showFeedback : Bool
  isCorrect : Bool
  incorrect : List TCard
  correct : Nat
  isDone : Bool
  deriving DecidableEq

/-- restartWithIncorrect of ResponseMode.tsx lines 65-73. -/
def restartWithIncorrect (s : RespState) (shuf : List TCard → List TCard) : RespState :=
  { cards := shuf s.incorrect, index := 0, userInput := [], showFeedback := false,
    isCorrect := s.isCorrect, incorrect := [], correct := 0, isDone := false }

/-- The string comparison of ListeningTest.tsx checkAnswer lines 179-191:
lower-case and trim both strings, then compare; internal whitespace is not
collapsed. -/
def listeningGradeString (userAnswer correctAnswer : Chars) : Bool :=
  trimStr (toLowerStr userAnswer) == trimStr (toLowerStr correctAnswer)

/-- Stored answers of a quiz or mixed-test session together with the done
flag, QuizMode part of types.ts lines 34-36 and TestMode.tsx lines 22-24. -/
structure AnswerSession where
  answers : Chars → Option Chars
  isDone : Bool

/-- Answer-affecting user events of a quiz or mixed-test session:
handleSelect of types.ts lines 75-78, handleSelectMC and handleResponseInput
of TestMode.tsx lines 115-123, and handleEndTest. -/
inductive AnswerEvent
  | selectMC : Chars → Chars → AnswerEvent
  | respInput : Chars → Chars → AnswerEvent
  | endTest : AnswerEvent

/-- JavaScript object spread update: set the value at one key, keep all
other keys. -/
def updateAnswer (f : Chars → Option Chars) (qid v : Chars) : Chars → Option Chars :=
  fun k => if k = qid then some v else f k

/-- One transition of the stored-answers state: selections and typed input
insert or overwrite an entry unless the session is done; ending the test
only sets the done flag. -/
def answersStep (s : AnswerSession) (e : AnswerEvent) : AnswerSession :=
  match e with
  | AnswerEvent.selectMC qid v =>
    if s.isDone then s else ⟨updateAnswer s.answers qid v, s.isDone⟩
  | AnswerEvent.respInput qid v =>
    if s.isDone then s else ⟨updateAnswer s.answers qid v, s.isDone⟩
  | AnswerEvent.endTest => ⟨s.answers, true⟩

/-- A quiz or mixed-test session run through a list of events. -/
def runAnswers (s : AnswerSession) (es : List AnswerEvent) : AnswerSession :=
  es.foldl answersStep s

/-- Unfolding the fallback while-loop: it appends fallback strings whose
indices continue from the current length plus one up to three. -/
theorem padTo3_eq_aux (pre : Chars) :
    ∀ (n : Nat) (l : List Chars), 3 - l.length = n →
      padTo3 pre l = l ++ (List.range' (l.length + 1) (3 - l.length)).map (placeholder pre) := by
  intro n
  induction n with
  | zero =>
    intro l h
    rw [padTo3]
    have hge : ¬ l.length < 3 := by omega
    simp [hge, h]
  | succ n ih =>
    intro l h
    have hlt : l.length < 3 := by omega
    rw [padTo3, if_pos hlt]
    have h2 : 3 - (l ++ [placeholder pre (l.length + 1)]).length = n := by
      simp only [List.length_append, List.length_cons, List.length_nil]; omega
    rw [ih _ h2]
    simp only [List.length_append, List.length_cons, List.length_nil, Nat.add_zero]
    rw [show 3 - l.length = n + 1 from h, show 3 - (l.length + 1) = n by omega,
      List.range'_succ]
    simp [List.append_assoc]

/-- Closed form of the fallback while-loop. -/
theorem padTo3_spec (pre : Chars) (l : List Chars) :
    padTo3 pre l = l ++ (List.range' (l.length + 1) (3 - l.length)).map (placeholder pre) :=
  padTo3_eq_aux pre (3 - l.length) l rfl

theorem takenDistractors_length_le (pool : List Chars) (correct : Chars)
    (shufD : List Chars → List Chars) :
    (takenDistractors pool correct shufD).length ≤ 3 :=
  List.length_take_le _ _

theorem takenDistractors_mem (pool : List Chars) (correct : Chars)
    (shufD : List Chars → List Chars) (hD : ∀ l, (shufD l).Perm l) :
    ∀ x ∈ takenDistractors pool correct shufD, x ∈ pool ∧ x ≠ correct := by
  intro x hx
  have h1 : x ∈ shufD (pool.filter (fun m => m != correct)) :=
    List.take_subset _ _ hx
  have h2 : x ∈ pool.filter (fun m => m != correct) := ((hD _).mem_iff).mp h1
  rcases List.mem_filter.mp h2 with ⟨hp, hb⟩
  exact ⟨hp, by simpa using hb⟩

/-- The sampler's output is the taken real distractors followed by fallback
strings indexed from the taken length plus one up to three. -/
theorem sampleDistractors_eq (pool : List Chars) (correct pre : Chars)
    (shufD : List Chars → List Chars) :
    sampleDistractors pool correct pre shufD =
      takenDistractors pool correct shufD ++
        (List.range' ((takenDistractors pool correct shufD).length + 1)
          (3 - (takenDistractors pool correct shufD).length)).map (placeholder pre) :=
  padTo3_spec pre _

theorem sampleDistractors_length (pool : List Chars) (correct pre : Chars)
    (shufD : List Chars → List Chars) :
    (sampleDistractors pool correct pre shufD).length = 3 := by
  rw [sampleDistractors_eq]
  have h := takenDistractors_length_le pool correct shufD
  simp only [List.length_append, List.length_map, List.length_range']
  omega

theorem placeholder_inj_small (pre : Chars) :
    ∀ i j, 1 ≤ i → i ≤ 3 → 1 ≤ j → j ≤ 3 → placeholder pre i = placeholder pre j → i = j := by
  intro i j hi1 hi3 hj1 hj3 h
  unfold placeholder at h
  rw [List.append_assoc, List.append_assoc] at h
  have h2 := List.append_cancel_left h
  have h3 : natToStr i = natToStr j := by simpa using h2
  interval_cases i <;> interval_cases j <;> first
    | rfl
    | exact absurd h3 (by decide)

theorem sampleDistractors_nodup (pool : List Chars) (correct pre : Chars)
    (shufD : List Chars → List Chars) (hD : ∀ l, (shufD l).Perm l)
    (hnd : (pool.filter (fun m => m != correct)).Nodup)
    (hph : ∀ k, 1 ≤ k → k ≤ 3 → placeholder pre k ∉ pool) :
    (sampleDistractors pool correct pre shufD).Nodup := by
  rw [sampleDistractors_eq]
  have hlen := takenDistractors_length_le pool correct shufD
  have hnd1 : (takenDistractors pool correct shufD).Nodup := by
    have hsh : (shufD (pool.filter (fun m => m != correct))).Nodup :=
      ((hD _).nodup_iff).mpr hnd
    exact (List.take_sublist _ _).nodup hsh
  refine List.Nodup.append hnd1 ?_ ?_
  · refine List.Nodup.map_on ?_ (List.nodup_range' _ _)
    intro a ha b hb hab
    rw [List.mem_range'_1] at ha hb
    exact placeholder_inj_small pre a b (by omega) (by omega) (by omega) (by omega) hab
  · intro x hx hx2
    rcases List.mem_map.mp hx2 with ⟨k, hk, hkEq⟩
    rw [List.mem_range'_1] at hk
    have hmem := takenDistractors_mem pool correct shufD hD x hx
    exact hph k (by omega) (by omega) (hkEq ▸ hmem.1)

theorem correct_not_mem_sample (pool : List Chars) (correct pre : Chars)
    (shufD : List Chars → List Chars) (hD : ∀ l, (shufD l).Perm l)
    (hph2 : ∀ k, 1 ≤ k → k ≤ 3 → placeholder pre k ≠ correct) :
    correct ∉ sampleDistractors pool correct pre shufD := by
  rw [sampleDistractors_eq]
  intro hmem
  rcases List.mem_append.mp hmem with h | h
  · exact (takenDistractors_mem pool correct shufD hD correct h).2 rfl
  · rcases List.mem_map.mp h with ⟨k, hk, hkEq⟩
    rw [List.mem_range'_1] at hk
    have hle := takenDistractors_length_le pool correct shufD
    exact hph2 k (by omega) (by omega) hkEq

theorem mcOptions_perm (pool : List Chars) (correct pre : Chars)
    (shufD shufO : List Chars → List Chars) (hO : ∀ l, (shufO l).Perm l) :
    (mcOptions pool correct pre shufD shufO).Perm
      (correct :: sampleDistractors pool correct pre shufD) := by
  unfold mcOptions
  exact (hO _).trans List.perm_append_comm

theorem mcOptions_length (pool : List Chars) (correct pre : Chars)
    (shufD shufO : List Chars → List Chars) (hO : ∀ l, (shufO l).Perm l) :
    (mcOptions pool correct pre shufD shufO).length = 4 := by
  have h := (mcOptions_perm pool correct pre shufD shufO hO).length_eq
  rw [h, List.length_cons, sampleDistractors_length]

theorem mcOptions_mem (pool : List Chars) (correct pre : Chars)
    (shufD shufO : List Chars → List Chars) (hO : ∀ l, (shufO l).Perm l) :
    correct ∈ mcOptions pool correct pre shufD shufO :=
  ((mcOptions_perm pool correct pre shufD shufO hO).mem_iff).mpr (List.mem_cons_self _ _)

/-- C1 counterexample: the pair of an empty stored answer and a reference
answer normalizing to empty has both normalized forms empty, and the core
rule grades it correct, but the mixed test's grader returns incorrect for it
because an empty-string stored answer is falsy and short-circuited; so the
both-empty-grades-correct rule does not hold for every caller. -/
theorem C1_counterexample :
    normalizeString [] = [] ∧ normalizeString [' '] = [] ∧
    gradeFreeText [] [' '] = true ∧
    testIsAnswerCorrect QType.response [' '] (some []) = false ∧
    testIsAnswerCorrect QType.response [' '] none = false ∧
    calculateScore [⟨"q1".data, QType.response, default, none, [' ']⟩]
      (fun k => if k = "q1".data then some [] else none) = 0 := by
  decide

/-- C1 (amended): whenever both compared strings normalize to the empty
string, the core free-text rule and ResponseMode's checkAnswer grade the
pair correct; the mixed test's calculateScore and isAnswerCorrect grade such
a pair correct only when the stored raw answer is a non-empty string, since
an absent or empty-string stored answer is short-circuited to incorrect. -/
theorem C1_both_empty_grading :
    (∀ u c : Chars, normalizeString u = [] → normalizeString c = [] →
      gradeFreeText u c = true) ∧
    (∀ u v : Chars, normalizeString u = [] → normalizeString v = [] →
      responseCheckAnswer u v = true) ∧
    (∀ a c : Chars, a ≠ [] → normalizeString a = [] → normalizeString c = [] →
      testIsAnswerCorrect QType.response c (some a) = true) ∧
    (∀ c : Chars, testIsAnswerCorrect QType.response c none = false) ∧
    (∀ c : Chars, testIsAnswerCorrect QType.response c (some []) = false) := by
  refine ⟨?_, ?_, ?_, fun c => rfl, fun c => rfl⟩
  · intro u c h1 h2
    simp [gradeFreeText, h1, h2]
  · intro u v h1 h2
    simp [responseCheckAnswer, h1, h2]
  · intro a c ha h1 h2
    cases a with
    | nil => exact absurd rfl ha
    | cons x xs => simp [testIsAnswerCorrect, gradeFreeText, h1, h2]

theorem C1_witness :
    testIsAnswerCorrect QType.response [] (some [' ']) = true ∧
    gradeFreeText [' ', ' '] [] = true :=
  ⟨C1_both_empty_grading.2.2.1 [' '] [] (by decide) (by decide) (by decide),
   C1_both_empty_grading.1 [' ', ' '] [] (by decide) (by decide)⟩

/-- C2: building the mixed test for a section of n cards yields exactly
n plus (n+3)/4 questions, where (n+3)/4 is the natural-number ceiling of
n over 4, characterized as the least m with n at most 4m. -/
theorem C2_test_question_count :
    ∀ (cards : List TCard) (pick : Nat → Nat) (roll : Nat → ℚ)
      (shufD shufO : Nat → List Chars → List Chars) (suffix : Nat → Chars)
      (finalShuf : List TQuestion → List TQuestion),
      (∀ l, (finalShuf l).Perm l) →
      (buildTest cards pick roll shufD shufO suffix finalShuf).length =
        cards.length + (cards.length + 3) / 4 ∧
      (∀ n m : Nat, (n + 3) / 4 ≤ m ↔ n ≤ 4 * m) := by
  intro cards pick roll shufD shufO suffix finalShuf hperm
  constructor
  · simp only [buildTest]
    rw [(hperm _).length_eq]
    simp [generateTestQuestions, totalQuestions]
  · intro n m
    omega

theorem C2_witness :
    (buildTest (List.replicate 10 default) (fun _ => 0) (fun _ => 0)
      (fun _ => id) (fun _ => id) (fun _ => []) id).length = 13 ∧
    (buildTest (List.replicate 4 default) (fun _ => 0) (fun _ => 0)
      (fun _ => id) (fun _ => id) (fun _ => []) id).length = 5 ∧
    (buildTest (List.replicate 1 default) (fun _ => 0) (fun _ => 0)
      (fun _ => id) (fun _ => id) (fun _ => []) id).length = 2 ∧
    (buildTest ([] : List TCard) (fun _ => 0) (fun _ => 0)
      (fun _ => id) (fun _ => id) (fun _ => []) id).length = 0 := by
  refine ⟨?_, ?_, ?_, ?_⟩ <;>
    · rw [(C2_test_question_count _ (fun _ => 0) (fun _ => 0) (fun _ => id)
        (fun _ => id) (fun _ => []) id (fun l => List.Perm.refl l)).1]
      decide

/-- A concrete card whose meaning collides with the first synthetic fallback
string. -/
def c3card : TCard := ⟨"id1".data, "cat".data, "Definition 1".data⟩

/-- C3 counterexample: in a one-card section whose meaning is the text
Definition 1, the generated quiz question's options are Definition 1,
Definition 2, Definition 3 and again Definition 1: length 4 holds, but the
correct answer occurs twice and the three incorrect alternatives are not
distinct from it. -/
theorem C3_counterexample :
    mcOptions [c3card.meaning] c3card.meaning defFallback id id =
      ["Definition 1".data, "Definition 2".data, "Definition 3".data,
        "Definition 1".data] ∧
    (mkQuizQuestions [c3card] (fun _ => id) (fun _ => id) (fun _ => [])).map
        (fun q => q.options) =
      [mcOptions [c3card.meaning] c3card.meaning defFallback id id] ∧
    (["Definition 1".data, "Definition 2".data, "Definition 3".data,
        "Definition 1".data] : List Chars).count "Definition 1".data = 2 := by
  refine ⟨?_, rfl, by decide⟩
  rw [mcOptions, sampleDistractors_eq]
  decide

/-- C3 (amended): every generated multiple-choice option list has length
exactly 4 and contains the correct answer; when additionally the filtered
candidate pool has no duplicate values and no synthetic fallback string for
indices 1 to 3 occurs in the pool or equals the correct answer, the options
are a permutation of the correct answer and three pairwise-distinct
distractors all different from it (so the correct answer occurs exactly
once). Both mixed-test multiple-choice shapes and the quiz questions build
their options through this one generator. -/
theorem C3_options_invariant :
    (∀ (pool : List Chars) (correct pre : Chars) (shufD shufO : List Chars → List Chars),
      (∀ l, (shufD l).Perm l) → (∀ l, (shufO l).Perm l) →
      (mcOptions pool correct pre shufD shufO).length = 4 ∧
      correct ∈ mcOptions pool correct pre shufD shufO ∧
      ((pool.filter (fun m => m != correct)).Nodup →
       (∀ k, 1 ≤ k → k ≤ 3 →
          placeholder pre k ∉ pool ∧ placeholder pre k ≠ correct) →
       (mcOptions pool correct pre shufD shufO).Perm
          (correct :: sampleDistractors pool correct pre shufD) ∧
       (sampleDistractors pool correct pre shufD).length = 3 ∧
       (sampleDistractors pool correct pre shufD).Nodup ∧
       correct ∉ sampleDistractors pool correct pre shufD)) ∧
    (∀ (cards : List TCard) (pick : Nat → Nat) (roll : Nat → ℚ)
        (shufD shufO : Nat → List Chars → List Chars) (suffix : Nat → Chars)
        (q : TQuestion),
      q ∈ generateTestQuestions cards pick roll shufD shufO suffix →
      q.options = none ∨
        ∃ i pool pre,
          q.options = some (mcOptions pool q.correctAnswer pre (shufD i) (shufO i))) ∧
    (∀ (cards : List TCard) (shufD shufO : Nat → List Chars → List Chars)
        (suffix : Nat → Chars) (q : QuizQuestion),
      q ∈ mkQuizQuestions cards shufD shufO suffix →
      ∃ i, q.options =
        mcOptions (cards.map (fun c => c.meaning)) q.card.meaning defFallback
          (shufD i) (shufO i)) := by
  refine ⟨?_, ?_, ?_⟩
  · intro pool correct pre shufD shufO hD hO
    refine ⟨mcOptions_length pool correct pre shufD shufO hO,
      mcOptions_mem pool correct pre shufD shufO hO, fun hnd hph => ?_⟩
    exact ⟨mcOptions_perm pool correct pre shufD shufO hO,
      sampleDistractors_length pool correct pre shufD,
      sampleDistractors_nodup pool correct pre shufD hD hnd
        (fun k h1 h3 => (hph k h1 h3).1),
      correct_not_mem_sample pool correct pre shufD hD
        (fun k h1 h3 => (hph k h1 h3).2)⟩
  · intro cards pick roll shufD shufO suffix q hq
    rcases List.mem_map.mp hq with ⟨i, hi, rfl⟩
    cases hroll : questionTypeRoll (roll i) with
    | mcWordToMeaning =>
      right
      exact ⟨i, cards.map (fun c => c.meaning), defFallback,
        by simp [mkTestQuestion, hroll]⟩
    | mcMeaningToWord =>
      right
      exact ⟨i, cards.map (fun c => c.vocab), wordFallback,
        by simp [mkTestQuestion, hroll]⟩
    | response =>
      left
      simp [mkTestQuestion, hroll]
  · intro cards shufD shufO suffix q hq
    rcases List.mem_map.mp hq with ⟨p, hp, rfl⟩
    exact ⟨p.1, rfl⟩

def c3pool : List Chars := ["red".data, "blue".data, "green".data, "gold".data]

theorem C3_witness :
    (mcOptions c3pool "red".data defFallback id id).length = 4 ∧
    (mcOptions c3pool "red".data defFallback id id).Perm
      ("red".data :: sampleDistractors c3pool "red".data defFallback id) ∧
    (sampleDistractors c3pool "red".data defFallback id).Nodup ∧
    "red".data ∉ sampleDistractors c3pool "red".data defFallback id := by
  have h := C3_options_invariant.1 c3pool "red".data defFallback id id
    (fun l => List.Perm.refl l) (fun l => List.Perm.refl l)
  have h2 := h.2.2 (by decide)
    (by intro k h1 h3; interval_cases k <;> exact ⟨by decide, by decide⟩)
  exact ⟨h.1, h2.1, h2.2.2.1, h2.2.2.2⟩

/-- C4 counterexample: for a pool with a single eligible distractor, the code
appends the fallback strings with indices 2 and 3, not 1 and 2 as the
claim's k equal 1, 2, and so on prescribes. -/
theorem C4_counterexample :
    sampleDistractors ["x".data] "y".data "D".data id =
      ["x".data, "D 2".data, "D 3".data] ∧
    placeholder "D".data 1 ∉ sampleDistractors ["x".data] "y".data "D".data id ∧
    sampleDistractors ["x".data] "y".data "D".data id ≠
      ["x".data, "D 1".data, "D 2".data] := by
  rw [sampleDistractors_eq]
  decide

/-- C4 (amended): the sampler filters the pool to values different from the
correct answer, takes up to three of them, and pads with synthetic fallback
strings whose indices continue from the current length plus one up to three
(k from taken-count+1 to 3, not from 1); the result always has exactly three
elements, and every element drawn from the pool differs from the correct
answer. -/
theorem C4_sampler_spec :
    ∀ (pool : List Chars) (correct pre : Chars) (shufD : List Chars → List Chars),
      (∀ l, (shufD l).Perm l) →
      (sampleDistractors pool correct pre shufD).length = 3 ∧
      sampleDistractors pool correct pre shufD =
        takenDistractors pool correct shufD ++
          (List.range' ((takenDistractors pool correct shufD).length + 1)
            (3 - (takenDistractors pool correct shufD).length)).map (placeholder pre) ∧
      (∀ x ∈ takenDistractors pool correct shufD, x ∈ pool ∧ x ≠ correct) := by
  intro pool correct pre shufD hD
  exact ⟨sampleDistractors_length pool correct pre shufD,
    sampleDistractors_eq pool correct pre shufD,
    takenDistractors_mem pool correct shufD hD⟩

theorem C4_witness :
    (sampleDistractors ["apple".data, "pear".data] "apple".data "Definition".data id).length
      = 3 :=
  (C4_sampler_spec ["apple".data, "pear".data] "apple".data "Definition".data id
    (fun l => List.Perm.refl l)).1

/-- C5: the score/missed consistency invariant fails in a flashcard session
that uses goBack to revisit and re-answer an earlier card, because handleBack
does not roll tallies back: a two-card session in which the first card is
answered forgot, goBack is pressed, and the card is re-answered got-it ends
Done with remembered 2 and one forgotten card, summing to 3 over a total of
2 questions. -/
theorem C5_goback_double_count :
    (runFlash (startFlash [⟨"c0".data, "alpha".data, "first".data⟩,
        ⟨"c1".data, "beta".data, "second".data⟩] id)
      [FlashEvent.answer false, FlashEvent.back,
        FlashEvent.answer true, FlashEvent.answer true]).isDone = true ∧
    (runFlash (startFlash [⟨"c0".data, "alpha".data, "first".data⟩,
        ⟨"c1".data, "beta".data, "second".data⟩] id)
      [FlashEvent.answer false, FlashEvent.back,
        FlashEvent.answer true, FlashEvent.answer true]).remembered = 2 ∧
    (runFlash (startFlash [⟨"c0".data, "alpha".data, "first".data⟩,
        ⟨"c1".data, "beta".data, "second".data⟩] id)
      [FlashEvent.answer false, FlashEvent.back,
        FlashEvent.answer true, FlashEvent.answer true]).forgotten.length = 1 ∧
    (startFlash [⟨"c0".data, "alpha".data, "first".data⟩,
        ⟨"c1".data, "beta".data, "second".data⟩] id).cards.length = 2 := by
  decide

/-- C6 counterexample: the draw 33/100 lies in the first third of the unit
interval, yet it rolls the meaning-to-word shape, not the word-to-meaning
shape: the partition points are 33/100 and 66/100, not thirds. -/
theorem C6_counterexample :
    questionTypeRoll (33 / 100) = QType.mcMeaningToWord ∧
    (33 / 100 : ℚ) < 1 / 3 := by
  constructor
  · rw [questionTypeRoll, if_neg (by norm_num), if_pos (by norm_num)]
  · norm_num

/-- C6 (amended): the shape roll partitions the unit interval at 33/100 and
66/100, giving probabilities 33/100, 33/100 and 34/100 for the three shapes:
approximately, but not exactly, one third each. -/
theorem C6_roll_intervals :
    (∀ r : ℚ, 0 ≤ r → r < 1 →
      (questionTypeRoll r = QType.mcWordToMeaning ↔ r < 33 / 100) ∧
      (questionTypeRoll r = QType.mcMeaningToWord ↔ 33 / 100 ≤ r ∧ r < 66 / 100) ∧
      (questionTypeRoll r = QType.response ↔ 66 / 100 ≤ r)) ∧
    (33 / 100 : ℚ) - 0 ≠ 1 / 3 ∧ (66 / 100 : ℚ) - 33 / 100 ≠ 1 / 3 ∧
    (1 : ℚ) - 66 / 100 ≠ 1 / 3 ∧
    ((33 / 100 : ℚ) - 0) + (66 / 100 - 33 / 100) + (1 - 66 / 100) = 1 := by
  refine ⟨?_, by norm_num, by norm_num, by norm_num, by norm_num⟩
  intro r h0 h1
  unfold questionTypeRoll
  by_cases hA : r < 33 / 100
  · rw [if_pos hA]
    exact ⟨⟨fun _ => hA, fun _ => rfl⟩,
      ⟨fun h => absurd h (by decide), fun h => absurd hA (not_lt.mpr h.1)⟩,
      ⟨fun h => absurd h (by decide),
       fun h => absurd hA (not_lt.mpr (le_trans (by norm_num) h))⟩⟩
  · rw [if_neg hA]
    by_cases hB : r < 66 / 100
    · rw [if_pos hB]
      exact ⟨⟨fun h => absurd h (by decide), fun h => absurd h hA⟩,
        ⟨fun _ => ⟨not_lt.mp hA, hB⟩, fun _ => rfl⟩,
        ⟨fun h => absurd h (by decide), fun h => absurd hB (not_lt.mpr h)⟩⟩
    · rw [if_neg hB]
      exact ⟨⟨fun h => absurd h (by decide), fun h => absurd h hA⟩,
        ⟨fun h => absurd h (by decide), fun h => absurd h.2 hB⟩,
        ⟨fun _ => not_lt.mp hB, fun _ => rfl⟩⟩

theorem C6_witness : questionTypeRoll (1 / 2) = QType.mcMeaningToWord :=
  ((C6_roll_intervals.1 (1 / 2) (by norm_num) (by norm_num)).2.1).mpr (by norm_num)

/-- C7: retrying the missed items from the Done state re-enters an
in-progress session at index 0 with reset tallies, and the new card sequence
is a permutation of exactly the previously missed cards, in both the
flashcard and the typed-response mode. -/
theorem C7_restart_with_missed :
    ∀ (s : FlashState) (t : RespState) (shuf : List TCard → List TCard),
      (∀ l, (shuf l).Perm l) → s.isDone = true → t.isDone = true →
      ((restartWithForgotten s shuf).index = 0 ∧
       (restartWithForgotten s shuf).remembered = 0 ∧
       (restartWithForgotten s shuf).forgotten = [] ∧
       (restartWithForgotten s shuf).isDone = false ∧
       (restartWithForgotten s shuf).cards.Perm s.forgotten) ∧
      ((restartWithIncorrect t shuf).index = 0 ∧
       (restartWithIncorrect t shuf).correct = 0 ∧
       (restartWithIncorrect t shuf).incorrect = [] ∧
       (restartWithIncorrect t shuf).userInput = [] ∧
       (restartWithIncorrect t shuf).showFeedback = false ∧
       (restartWithIncorrect t shuf).isDone = false ∧
       (restartWithIncorrect t shuf).cards.Perm t.incorrect) := by
  intro s t shuf hshuf hs ht
  exact ⟨⟨rfl, rfl, rfl, rfl, hshuf _⟩, ⟨rfl, rfl, rfl, rfl, rfl, rfl, hshuf _⟩⟩

def doneFlash : FlashState :=
  { cards := [], index := 2, isFlipped := false,
    forgotten := [⟨"c0".data, "a".data, "m".data⟩], remembered := 1, isDone := true }

def doneResp : RespState :=
  { cards := [], index := 2, userInput := "x".data, showFeedback := true,
    isCorrect := false, incorrect := [⟨"c1".data, "b".data, "n".data⟩],
    correct := 1, isDone := true }

theorem C7_witness :
    (restartWithForgotten doneFlash id).index = 0 ∧
    (restartWithForgotten doneFlash id).cards.Perm doneFlash.forgotten ∧
    (restartWithIncorrect doneResp id).correct = 0 ∧
    (restartWithIncorrect doneResp id).cards.Perm doneResp.incorrect := by
  have h := C7_restart_with_missed doneFlash doneResp id (fun l => List.Perm.refl l) rfl rfl
  exact ⟨h.1.1, h.1.2.2.2.2, h.2.2.1, h.2.2.2.2.2.2.2⟩

/-- C8: in a running flashcard session, goBack at index 0 leaves the state
unchanged, and at a positive index moves to the previous index while leaving
the remembered count, the forgotten list and the cards unchanged. -/
theorem C8_goback_spec :
    ∀ s : FlashState, s.isDone = false →
      (s.index = 0 → flashStep s FlashEvent.back = s) ∧
      (0 < s.index →
        (flashStep s FlashEvent.back).index = s.index - 1 ∧
        (flashStep s FlashEvent.back).remembered = s.remembered ∧
        (flashStep s FlashEvent.back).forgotten = s.forgotten ∧
        (flashStep s FlashEvent.back).cards = s.cards ∧
        (flashStep s FlashEvent.back).isDone = false) := by
  intro s hdone
  have hstep : flashStep s FlashEvent.back = handleBack s := by
    simp [flashStep, hdone]
  constructor
  · intro h0
    rw [hstep, handleBack, if_neg (by omega)]
  · intro hpos
    rw [hstep, handleBack, if_pos hpos]
    exact ⟨rfl, rfl, rfl, rfl, hdone⟩

def backFlash : FlashState :=
  { cards := [⟨"c0".data, "a".data, "m".data⟩, ⟨"c1".data, "b".data, "n".data⟩],
    index := 1, isFlipped := true, forgotten := [], remembered := 1, isDone := false }

def backFlash0 : FlashState := { backFlash with index := 0 }

theorem C8_witness :
    flashStep backFlash0 FlashEvent.back = backFlash0 ∧
    (flashStep backFlash FlashEvent.back).index = 0 ∧
    (flashStep backFlash FlashEvent.back).forgotten = backFlash.forgotten ∧
    (flashStep backFlash FlashEvent.back).remembered = backFlash.remembered := by
  have h0 := (C8_goback_spec backFlash0 rfl).1 rfl
  have h1 := (C8_goback_spec backFlash rfl).2 (by decide)
  exact ⟨h0, h1.1, h1.2.2.1, h1.2.1⟩

/-- C9 counterexample: on a pair differing only in an internal double space,
the core normalize-then-compare rule grades correct but the listening
exercise's comparison, which never collapses internal whitespace, grades
incorrect; the two primitives are therefore not the same. -/
theorem C9_counterexample :
    gradeFreeText "a  b".data "a b".data = true ∧
    listeningGradeString "a  b".data "a b".data = false := by
  decide

/-- C9 (amended): the listening exercise lower-cases and trims both strings
but does not collapse internal whitespace runs; its verdict agrees with the
core normalize-then-compare rule exactly on pairs whose lower-cased trimmed
forms are already whitespace-collapsed. -/
theorem C9_listening_agreement :
    ∀ u c : Chars,
      collapseWs (trimStr (toLowerStr u)) = trimStr (toLowerStr u) →
      collapseWs (trimStr (toLowerStr c)) = trimStr (toLowerStr c) →
      listeningGradeString u c = gradeFreeText u c := by
  intro u c h1 h2
  simp only [listeningGradeString, gradeFreeText, normalizeString, h1, h2]

theorem C9_witness :
    listeningGradeString "Cat ".data "cat".data = gradeFreeText "Cat ".data "cat".data :=
  C9_listening_agreement _ _ (by decide) (by decide)

/-- C10: in the quiz and mixed-test sessions the set of question ids holding
a stored answer never shrinks: every selection or typed input adds or
overwrites an entry, ending the test keeps all entries, and hence over any
event sequence an answered question stays answered. -/
theorem C10_answers_monotone :
    (∀ (s : AnswerSession) (e : AnswerEvent) (k : Chars),
        s.answers k ≠ none → (answersStep s e).answers k ≠ none) ∧
    (∀ (s : AnswerSession) (es : List AnswerEvent) (k : Chars),
        s.answers k ≠ none → (runAnswers s es).answers k ≠ none) ∧
    (∀ (s : AnswerSession) (qid v k : Chars), s.isDone = false →
        (answersStep s (AnswerEvent.selectMC qid v)).answers k =
          if k = qid then some v else s.answers k) ∧
    (∀ (s : AnswerSession) (qid v k : Chars), s.isDone = false →
        (answersStep s (AnswerEvent.respInput qid v)).answers k =
          if k = qid then some v else s.answers k) ∧
    (∀ s : AnswerSession, (answersStep s AnswerEvent.endTest).answers = s.answers) := by
  have hstep : ∀ (s : AnswerSession) (e : AnswerEvent) (k : Chars),
      s.answers k ≠ none → (answersStep s e).answers k ≠ none := by
    intro s e k h
    cases e with
    | selectMC qid v =>
      by_cases hd : s.isDone
      · simpa [answersStep, hd] using h
      · simp only [answersStep]
        rw [if_neg hd]
        show updateAnswer s.answers qid v k ≠ none
        unfold updateAnswer
        split
        · simp
        · exact h
    | respInput qid v =>
      by_cases hd : s.isDone
      · simpa [answersStep, hd] using h
      · simp only [answersStep]
        rw [if_neg hd]
        show updateAnswer s.answers qid v k ≠ none
        unfold updateAnswer
        split
        · simp
        · exact h
    | endTest => exact h
  have hrun : ∀ (es : List AnswerEvent) (s : AnswerSession) (k : Chars),
      s.answers k ≠ none → (runAnswers s es).answers k ≠ none := by
    intro es
    induction es with
    | nil => intro s k h; exact h
    | cons e es ih => intro s k h; exact ih _ _ (hstep s e k h)
  refine ⟨hstep, fun s es k h => hrun es s k h, ?_, ?_, fun s => rfl⟩
  · intro s qid v k hd
    simp [answersStep, hd, updateAnswer]
  · intro s qid v k hd
    simp [answersStep, hd, updateAnswer]

def ansSession0 : AnswerSession :=
  ⟨fun k => if k = "q1".data then some "x".data else none, false⟩

theorem C10_witness :
    (runAnswers ansSession0
      [AnswerEvent.respInput "q2".data "y".data, AnswerEvent.endTest]).answers
        "q1".data ≠ none :=
  C10_answers_monotone.2.1 ansSession0
    [AnswerEvent.respInput "q2".data "y".data, AnswerEvent.endTest]
    "q1".data (by decide)

end FlashCard
